import Mathlib

/-!
A shallow embedding of fluxfox's MetaSector track engine
(src/track/metasector.rs) and proofs about its sector-level contract.

Machine bytes are modelled as Nat values; where the source masks to a byte
we write an explicit mod or bitwise-and with 255.  Fallible operations
return an explicit outcome type: ok carries the value, err carries a
DiskImageError, and crash models a Rust panic (index out of bounds,
unimplemented!).  Functions that mutate the track in Rust return the new
track explicitly.  The randomness consumed by read_data is modelled as a
stream of bytes indexed by byte position.
-/

namespace FluxFox

/-- Physical address: cylinder and head.  (Geometry value type from the
crate root; widths u16/u8 are irrelevant to the proved properties, values
are modelled as Nat.) -/
structure DiskChs where
  c : Nat
  h : Nat
  s : Nat
deriving DecidableEq, Repr, Inhabited

/-- Sector identity: cylinder, head, sector, size code. -/
structure DiskChsn where
  c : Nat
  h : Nat
  s : Nat
  n : Nat
deriving DecidableEq, Repr, Inhabited

/-- DiskChs::from(DiskChsn): drop the size code. -/
def DiskChs.ofChsn (x : DiskChsn) : DiskChs := ⟨x.c, x.h, x.s⟩

/-- The error kinds surfaced by the track engine. -/
inductive DiskImageError where
  | uniqueIdError
  | parameterError
  | unsupportedFormat
  | seekError
deriving DecidableEq, Repr, Inhabited

/-- Outcome of a Rust call: Ok value, Err value, or a panic. -/
inductive RResult (ε α : Type) where
  | ok : α → RResult ε α
  | err : ε → RResult ε α
  | crash : RResult ε α
deriving DecidableEq, Repr

/-- Scope of a sector read/write. -/
inductive RwSectorScope where
  | dataOnly
  | dataBlock
deriving DecidableEq, Repr

/-- Per-byte weak-bit / hole overlay (struct MetaMask). -/
structure MetaMask where
  has_bits : Bool
  mask : List Nat
deriving DecidableEq, Repr, Inhabited

/-- MetaMask::empty(len). -/
def MetaMask.emptyMask (len : Nat) : MetaMask :=
  { has_bits := false, mask := List.replicate len 0 }

/-- MetaMask::from / set_mask: copy the slice and recompute has_bits. -/
def MetaMask.fromSlice (m : List Nat) : MetaMask :=
  { has_bits := m.any (fun x => x != 0), mask := m }

/-- The indexed assignment v[i] = x of a Rust Vec: panics when out of range. -/
def listAssign (v : List Nat) (i : Nat) (x : Nat) : Option (List Nat) :=
  if i < v.length then some (v.set i x) else none

/-- Loop body chain of MetaMask::or_slice: for (i, m) in source, mask[i] |= m. -/
def orSliceLoop : List Nat → List (Nat × Nat) → Option (List Nat)
  | mask, [] => some mask
  | mask, (i, m) :: rest =>
    match listAssign mask i (mask.getD i 0 ||| m) with
    | none => none
    | some mask1 => orSliceLoop mask1 rest

/-- MetaMask::or_slice: OR a slice into the mask and recompute has_bits.
Panics (crash/none) when the source slice is longer than the mask. -/
def MetaMask.orSlice (mm : MetaMask) (src : List Nat) : Option MetaMask :=
  match orSliceLoop mm.mask src.enum with
  | none => none
  | some mask1 => some { has_bits := mask1.any (fun x => x != 0), mask := mask1 }

/-- Input record fed by format parsers (struct SectorDescriptor). -/
structure SectorDescriptor where
  id_chsn : DiskChsn
  address_crc_error : Bool
  data_crc_error : Bool
  deleted_mark : Bool
  missing_data : Bool
  data : List Nat
  weak_mask : Option (List Nat)
  hole_mask : Option (List Nat)
deriving DecidableEq, Repr, Inhabited

/-- One sector record (struct MetaSector). -/
structure MetaSector where
  id_chsn : DiskChsn
  address_crc_error : Bool
  data_crc_error : Bool
  deleted_mark : Bool
  missing_data : Bool
  data : List Nat
  weak_mask : MetaMask
  hole_mask : MetaMask
deriving DecidableEq, Repr, Inhabited

/-- The mask-application loop of MetaSector::read_data.
Walks the zip of the weak and hole masks with its running index i; when the
combined mask byte is non-zero the data byte at i is replaced by
(data[i] & !m) | (r & m) with r a fresh random byte.  Indexing data[i]
out of range panics (none). -/
def applyMasksAux (rng : Nat → Nat) : Nat → List (Nat × Nat) → List Nat → Option (List Nat)
  | _, [], d => some d
  | i, p :: rest, d =>
    if p.1 ||| p.2 = 0 then applyMasksAux rng (i + 1) rest d
    else if i < d.length then
      applyMasksAux rng (i + 1) rest
        (d.set i ((d.getD i 0 &&& ((p.1 ||| p.2) ^^^ 255)) |||
          (rng i % 256 &&& (p.1 ||| p.2))))
    else none

/-- Bit (j, b) lies under the combined weak-or-hole mask walked by
applyMasksAux from running index i: some pair at offset k lands on byte j
with bit b of its combined mask set. -/
def maskedBy (i : Nat) (ps : List (Nat × Nat)) (j b : Nat) : Prop :=
  ∃ k, k < ps.length ∧ i + k = j ∧
    ((ps.getD k (0, 0)).1 ||| (ps.getD k (0, 0)).2).testBit b = true

/-- MetaSector::read_data: empty when missing_data, otherwise a copy of the
data with every byte under a non-zero combined mask byte randomized under
the mask. -/
def MetaSector.read_data (s : MetaSector) (rng : Nat → Nat) : Option (List Nat) :=
  if s.missing_data then some []
  else applyMasksAux rng 0 (s.weak_mask.mask.zip s.hole_mask.mask) s.data

/-- One track of MetaSectors (struct MetaSectorTrack).  encoding and
data_rate are opaque codes irrelevant to the sector engine. -/
structure MetaSectorTrack where
  ch : DiskChs
  encoding : Nat
  data_rate : Nat
  sectors : List MetaSector
deriving DecidableEq, Repr, Inhabited

/-- Result record of read_sector. -/
structure ReadSectorResult where
  id_chsn : Option DiskChsn
  data_idx : Nat
  data_len : Nat
  read_buf : List Nat
  deleted_mark : Bool
  not_found : Bool
  no_dam : Bool
  address_crc_error : Bool
  data_crc_error : Bool
  wrong_cylinder : Bool
  bad_cylinder : Bool
  wrong_head : Bool
deriving DecidableEq, Repr, Inhabited

/-- Result record of scan_sector. -/
structure ScanSectorResult where
  not_found : Bool
  no_dam : Bool
  deleted_mark : Bool
  address_crc_error : Bool
  data_crc_error : Bool
  wrong_cylinder : Bool
  bad_cylinder : Bool
  wrong_head : Bool
deriving DecidableEq, Repr, Inhabited

/-- Result record of write_sector. -/
structure WriteSectorResult where
  not_found : Bool
  no_dam : Bool
  address_crc_error : Bool
  wrong_cylinder : Bool
  bad_cylinder : Bool
  wrong_head : Bool
deriving DecidableEq, Repr, Inhabited

/-- Track consistency report (struct TrackConsistency). -/
structure TrackConsistency where
  sector_ct : Nat
  nonconsecutive_sectors : Bool
  bad_data_crc : Bool
  bad_address_crc : Bool
  deleted_data : Bool
  consistent_sector_size : Option Nat
deriving DecidableEq, Repr, Inhabited

/-- The per-sector test of the match_sectors filter closure:
(debug && matched_s) || (DiskChs::from(id_chsn) == chs && (n absent or equal)). -/
def sectorMatches (s : MetaSector) (chs : DiskChs) (n : Option Nat) (debug : Bool) : Bool :=
  (debug && (s.id_chsn.s == chs.s)) ||
    ((DiskChs.ofChsn s.id_chsn == chs) &&
      (match n with
       | none => true
       | some nv => s.id_chsn.n == nv))

/-- wrong_cylinder diagnostic: any sector whose id cylinder differs from the
query cylinder (accumulated over every sector visited by the filter). -/
def wrongCylinderFlag (t : MetaSectorTrack) (chs : DiskChs) : Bool :=
  t.sectors.any (fun s => s.id_chsn.c != chs.c)

/-- bad_cylinder diagnostic: any sector with the 0xFF sentinel cylinder. -/
def badCylinderFlag (t : MetaSectorTrack) : Bool :=
  t.sectors.any (fun s => s.id_chsn.c == 255)

/-- wrong_head diagnostic: any sector whose id head differs from the query head. -/
def wrongHeadFlag (t : MetaSectorTrack) (chs : DiskChs) : Bool :=
  t.sectors.any (fun s => s.id_chsn.h != chs.h)

/-- Indices (in physical order) of the sectors accepted by the
match_sectors / match_sectors_mut filter. -/
def matchIdxs (t : MetaSectorTrack) (chs : DiskChs) (n : Option Nat) (debug : Bool) : List Nat :=
  (List.range t.sectors.length).filter
    (fun i => sectorMatches (t.sectors.getD i default) chs n debug)

/-- Modelled from the spec: DiskChsn::n_to_bytes lives in the crate root
(src/chs.rs), which is not part of the sources under review; the spec fixes
byte length = 128 * 2^N. -/
def n_to_bytes (n : Nat) : Nat := 128 * 2 ^ n

/-- Inner loop of the alternate branch of add_sector:
let mut xor_vec = Vec::with_capacity(es.data.len()) — capacity only, the
vector has length 0 — followed by xor_vec[i] = ns_byte ^ es_byte over the
zip of the two data vectors. -/
def mkXorVec (nsData esData : List Nat) : Option (List Nat) :=
  ((nsData.zip esData).enum).foldlM
    (fun v (p : Nat × Nat × Nat) => listAssign v p.1 (p.2.1 ^^^ p.2.2))
    ([] : List Nat)

/-- The new MetaSector built by add_sector from a descriptor: masks are
taken from the descriptor, or created empty at the data length when
absent. -/
def sdToMetaSector (sd : SectorDescriptor) : MetaSector :=
  { id_chsn := sd.id_chsn
    address_crc_error := sd.address_crc_error
    data_crc_error := sd.data_crc_error
    deleted_mark := sd.deleted_mark
    missing_data := sd.missing_data
    data := sd.data
    weak_mask :=
      match sd.weak_mask with
      | some m => MetaMask.fromSlice m
      | none => MetaMask.emptyMask sd.data.length
    hole_mask :=
      match sd.hole_mask with
      | some m => MetaMask.fromSlice m
      | none => MetaMask.emptyMask sd.data.length }

/-- MetaSectorTrack::add_sector.  Returns the updated track and the call
outcome.  alternate = true merges into an existing sector with identical
id_chsn by OR-ing the data XOR into its weak mask. -/
def MetaSectorTrack.add_sector (t : MetaSectorTrack) (sd : SectorDescriptor)
    (alternate : Bool) : MetaSectorTrack × RResult DiskImageError Unit :=
  let new_sector : MetaSector := sdToMetaSector sd
  if alternate then
    match t.sectors.findIdx? (fun s => s.id_chsn == sd.id_chsn) with
    | some i =>
      let es := t.sectors.getD i default
      match mkXorVec new_sector.data es.data with
      | none => (t, .crash)
      | some xv =>
        match es.weak_mask.orSlice xv with
        | none => (t, .crash)
        | some wm =>
          ({ t with sectors := t.sectors.set i { es with weak_mask := wm } }, .ok ())
    | none => ({ t with sectors := t.sectors ++ [new_sector] }, .ok ())
  else ({ t with sectors := t.sectors ++ [new_sector] }, .ok ())

/-- MetaSectorTrack::read_sector.  DataBlock scope hits unimplemented!
(a panic).  Otherwise matches sectors; zero matches yield a not_found
result, else the first match in physical order is read with masks applied.
The receiver is not mutated, so no track is returned. -/
def MetaSectorTrack.read_sector (t : MetaSectorTrack) (chs : DiskChs) (n : Option Nat)
    (scope : RwSectorScope) (debug : Bool) (rng : Nat → Nat) :
    RResult DiskImageError ReadSectorResult :=
  match scope with
  | .dataBlock => .crash
  | .dataOnly =>
    let idxs := matchIdxs t chs n debug
    if idxs.length = 0 then
      .ok
        { id_chsn := none
          data_idx := 0
          data_len := 0
          read_buf := []
          deleted_mark := false
          not_found := true
          no_dam := false
          address_crc_error := false
          data_crc_error := false
          wrong_cylinder := wrongCylinderFlag t chs
          bad_cylinder := badCylinderFlag t
          wrong_head := wrongHeadFlag t chs }
    else
      let s := t.sectors.getD (idxs.headD 0) default
      match s.read_data rng with
      | none => .crash
      | some buf =>
        .ok
          { id_chsn := some s.id_chsn
            data_idx := 0
            data_len := s.data.length
            read_buf := buf
            deleted_mark := s.deleted_mark
            not_found := false
            no_dam := false
            address_crc_error := s.address_crc_error
            data_crc_error := s.data_crc_error
            wrong_cylinder := wrongCylinderFlag t chs
            bad_cylinder := badCylinderFlag t
            wrong_head := wrongHeadFlag t chs }

/-- MetaSectorTrack::scan_sector: like read_sector but without data and with
the debug flag fixed to false. -/
def MetaSectorTrack.scan_sector (t : MetaSectorTrack) (chs : DiskChs) (n : Option Nat) :
    RResult DiskImageError ScanSectorResult :=
  let idxs := matchIdxs t chs n false
  if idxs.length = 0 then
    .ok
      { not_found := true
        no_dam := false
        deleted_mark := false
        address_crc_error := false
        data_crc_error := false
        wrong_cylinder := wrongCylinderFlag t chs
        bad_cylinder := badCylinderFlag t
        wrong_head := wrongHeadFlag t chs }
  else
    let s := t.sectors.getD (idxs.headD 0) default
    .ok
      { not_found := false
        no_dam := false
        deleted_mark := s.deleted_mark
        address_crc_error := s.address_crc_error
        data_crc_error := s.data_crc_error
        wrong_cylinder := wrongCylinderFlag t chs
        bad_cylinder := badCylinderFlag t
        wrong_head := wrongHeadFlag t chs }

/-- MetaSectorTrack::write_sector.  More than one match is UniqueIdError;
zero matches succeed with not_found false; a buffer length different from
n_to_bytes(id.n) is ParameterError; a target with missing_data or a bad
address CRC suppresses the write; otherwise data is copied in place
(copy_from_slice panics on length mismatch) and deleted_mark set. -/
def MetaSectorTrack.write_sector (t : MetaSectorTrack) (chs : DiskChs) (n : Option Nat)
    (write_data : List Nat) (write_deleted : Bool) (debug : Bool) :
    MetaSectorTrack × RResult DiskImageError WriteSectorResult :=
  let idxs := matchIdxs t chs n debug
  if idxs.length > 1 then (t, .err .uniqueIdError)
  else if idxs.length = 0 then
    (t, .ok
      { not_found := false
        no_dam := false
        address_crc_error := false
        wrong_cylinder := wrongCylinderFlag t chs
        bad_cylinder := badCylinderFlag t
        wrong_head := wrongHeadFlag t chs })
  else
    let i := idxs.headD 0
    let s := t.sectors.getD i default
    if n_to_bytes s.id_chsn.n ≠ write_data.length then (t, .err .parameterError)
    else if s.missing_data || s.address_crc_error then
      (t, .ok
        { not_found := false
          no_dam := s.missing_data
          address_crc_error := s.address_crc_error
          wrong_cylinder := wrongCylinderFlag t chs
          bad_cylinder := badCylinderFlag t
          wrong_head := wrongHeadFlag t chs })
    else if s.data.length = write_data.length then
      let s1 := { s with data := write_data, deleted_mark := write_deleted }
      ({ t with sectors := t.sectors.set i s1 }, .ok
        { not_found := false
          no_dam := s1.missing_data
          address_crc_error := s1.address_crc_error
          wrong_cylinder := wrongCylinderFlag t chs
          bad_cylinder := badCylinderFlag t
          wrong_head := wrongHeadFlag t chs })
    else (t, .crash)

/-- The body of the get_next_id loop: once a sector id with matching s has
been seen, the next sector visited supplies s and n; the cylinder and head
of the returned id come from the query. -/
def nextIdAux (chs : DiskChs) (first : MetaSector) : List MetaSector → Bool → Option DiskChsn
  | [], matched =>
    if matched then some ⟨chs.c, chs.h, first.id_chsn.s, first.id_chsn.n⟩ else none
  | si :: rest, matched =>
    if matched then some ⟨chs.c, chs.h, si.id_chsn.s, si.id_chsn.n⟩
    else nextIdAux chs first rest (si.id_chsn.s == chs.s)

/-- MetaSectorTrack::get_next_id. -/
def MetaSectorTrack.get_next_id (t : MetaSectorTrack) (chs : DiskChs) : Option DiskChsn :=
  match t.sectors with
  | [] => none
  | first :: _ => nextIdAux chs first t.sectors false

/-- The n_set insertion loop of get_track_consistency: fold the sectors,
appending each size code not seen before. -/
def nsFold (l : List MetaSector) (acc : List Nat) : List Nat :=
  l.foldl
    (fun acc s => if acc.contains s.id_chsn.n then acc else acc.concat s.id_chsn.n) acc

/-- The distinct size codes observed across the track, in first-seen order
(models the FoxHashSet n_set of get_track_consistency, of which only the
cardinality is used). -/
def distinctNs (t : MetaSectorTrack) : List Nat :=
  nsFold t.sectors []

/-- last_n of get_track_consistency: starts 0, overwritten by every sector. -/
def lastN (t : MetaSectorTrack) : Nat :=
  t.sectors.foldl (fun _ s => s.id_chsn.n) 0

/-- MetaSectorTrack::get_track_consistency. -/
def MetaSectorTrack.get_track_consistency (t : MetaSectorTrack) : TrackConsistency :=
  { sector_ct := t.sectors.length
    nonconsecutive_sectors := t.sectors.enum.any (fun p => p.2.id_chsn.s != p.1 + 1)
    bad_data_crc := t.sectors.any (fun s => s.data_crc_error)
    bad_address_crc := t.sectors.any (fun s => s.address_crc_error)
    deleted_data := t.sectors.any (fun s => s.deleted_mark)
    consistent_sector_size :=
      if (distinctNs t).length > 1 then none else some (lastN t) }

/-- MetaSectorTrack::has_weak_bits. -/
def MetaSectorTrack.has_weak_bits (t : MetaSectorTrack) : Bool :=
  t.sectors.any (fun s => s.weak_mask.has_bits)

/-! Concrete fixtures used by witnesses and counterexamples. -/

/-- A degenerate random stream: every draw is 0. -/
def rngZero : Nat → Nat := fun _ => 0

/-- A random stream of all-ones bytes. -/
def rngFF : Nat → Nat := fun _ => 255

/-- A track with no sectors. -/
def emptyTrack : MetaSectorTrack := ⟨⟨0, 0, 0⟩, 0, 0, []⟩

/-- Scenario S4: sector id (0,0,1,0) with 128 bytes of 0xAA and no masks. -/
def sectorAA : MetaSector :=
  { id_chsn := ⟨0, 0, 1, 0⟩
    address_crc_error := false
    data_crc_error := false
    deleted_mark := false
    missing_data := false
    data := List.replicate 128 170
    weak_mask := MetaMask.emptyMask 128
    hole_mask := MetaMask.emptyMask 128 }

/-- Track holding only sectorAA. -/
def trackS4 : MetaSectorTrack := ⟨⟨0, 0, 0⟩, 0, 0, [sectorAA]⟩

/-- Scenario S4 second dump: same id, 128 bytes of 0xAB. -/
def sdAB : SectorDescriptor :=
  { id_chsn := ⟨0, 0, 1, 0⟩
    address_crc_error := false
    data_crc_error := false
    deleted_mark := false
    missing_data := false
    data := List.replicate 128 171
    weak_mask := none
    hole_mask := none }

/-- A sector with id (0,0,1,2), used twice to build a duplicate-id track. -/
def dupSector : MetaSector :=
  { id_chsn := ⟨0, 0, 1, 2⟩
    address_crc_error := false
    data_crc_error := false
    deleted_mark := false
    missing_data := false
    data := [0]
    weak_mask := MetaMask.emptyMask 1
    hole_mask := MetaMask.emptyMask 1 }

/-- Scenario S6: two sectors with the same id. -/
def dupTrack : MetaSectorTrack := ⟨⟨0, 0, 0⟩, 0, 0, [dupSector, dupSector]⟩

/-- A sector whose id cylinder (1) differs from the physical cylinder 0. -/
def offCylSector : MetaSector :=
  { id_chsn := ⟨1, 0, 1, 2⟩
    address_crc_error := false
    data_crc_error := false
    deleted_mark := false
    missing_data := false
    data := [0]
    weak_mask := MetaMask.emptyMask 1
    hole_mask := MetaMask.emptyMask 1 }

/-- Track holding only offCylSector. -/
def offCylTrack : MetaSectorTrack := ⟨⟨0, 0, 0⟩, 0, 0, [offCylSector]⟩

/-- A sector with missing_data (no DAM), id (0,0,2,0). -/
def supSector : MetaSector :=
  { id_chsn := ⟨0, 0, 2, 0⟩
    address_crc_error := false
    data_crc_error := false
    deleted_mark := false
    missing_data := true
    data := List.replicate 128 9
    weak_mask := MetaMask.emptyMask 128
    hole_mask := MetaMask.emptyMask 128 }

/-- Track holding only supSector. -/
def supTrack : MetaSectorTrack := ⟨⟨0, 0, 0⟩, 0, 0, [supSector]⟩

/-- Sector with id (0,0,1,0) and one data byte. -/
def nextSectorA : MetaSector :=
  { id_chsn := ⟨0, 0, 1, 0⟩
    address_crc_error := false
    data_crc_error := false
    deleted_mark := false
    missing_data := false
    data := [0]
    weak_mask := MetaMask.emptyMask 1
    hole_mask := MetaMask.emptyMask 1 }

/-- Sector whose id (5,1,3,0) differs from its physical track in c and h. -/
def nextSectorB : MetaSector :=
  { id_chsn := ⟨5, 1, 3, 0⟩
    address_crc_error := false
    data_crc_error := false
    deleted_mark := false
    missing_data := false
    data := [0]
    weak_mask := MetaMask.emptyMask 1
    hole_mask := MetaMask.emptyMask 1 }

/-- Two-sector track for the get_next_id analysis. -/
def nextTrack : MetaSectorTrack := ⟨⟨0, 0, 0⟩, 0, 0, [nextSectorA, nextSectorB]⟩

/-- One-byte sector 0xAA whose weak mask sets bit 0. -/
def weakSector : MetaSector :=
  { id_chsn := ⟨0, 0, 1, 0⟩
    address_crc_error := false
    data_crc_error := false
    deleted_mark := false
    missing_data := false
    data := [170]
    weak_mask := MetaMask.fromSlice [1]
    hole_mask := MetaMask.fromSlice [0] }

/-- Descriptor for the round-trip witness: id (0,0,1,0), data [7, 8], no
masks. -/
def sdRT : SectorDescriptor :=
  { id_chsn := ⟨0, 0, 1, 0⟩
    address_crc_error := false
    data_crc_error := false
    deleted_mark := false
    missing_data := false
    data := [7, 8]
    weak_mask := none
    hole_mask := none }

/-- A stored sector without a Data Address Mark (missing_data). -/
def mdSector : MetaSector :=
  { id_chsn := ⟨0, 0, 1, 0⟩
    address_crc_error := false
    data_crc_error := false
    deleted_mark := false
    missing_data := true
    data := [1, 2, 3]
    weak_mask := MetaMask.emptyMask 3
    hole_mask := MetaMask.emptyMask 3 }

/-- Track holding only mdSector. -/
def mdTrack : MetaSectorTrack := ⟨⟨0, 0, 0⟩, 0, 0, [mdSector]⟩

/-! Theorems. -/

set_option maxRecDepth 4096

/-- C1: merging an alternate dump of sector (0,0,1,0) — 128 bytes of 0xAB
over an existing 128 bytes of 0xAA — panics instead of marking the
differing bits weak: the xor vector is created by Vec::with_capacity, so
it has length 0 and the first indexed write xor_vec[0] is out of bounds. -/
theorem c1_alternate_add_crashes :
    trackS4.add_sector sdAB true = (trackS4, .crash) := by decide

/-- C2 (amended): for every MetaSectorTrack and query, read_sector with
scope = DataBlock panics via unimplemented! — it neither succeeds nor
returns a DiskImageError value. -/
theorem c2_datablock_read_crashes (t : MetaSectorTrack) (chs : DiskChs)
    (n : Option Nat) (debug : Bool) (rng : Nat → Nat) :
    t.read_sector chs n .dataBlock debug rng = .crash := rfl

/-- C2 counterexample: at a concrete track and query, read_sector with
scope = DataBlock does not return ParameterError as the claim states; the
call crashes. -/
theorem c2_datablock_counterexample :
    emptyTrack.read_sector ⟨0, 0, 1⟩ none .dataBlock false rngZero ≠
        .err .parameterError ∧
      emptyTrack.read_sector ⟨0, 0, 1⟩ none .dataBlock false rngZero = .crash :=
  ⟨by decide, rfl⟩

/-- C6: when sector matching yields two or more sectors, write_sector
fails with UniqueIdError and the track is returned unchanged. -/
theorem c6_duplicate_write_unique_id (t : MetaSectorTrack) (chs : DiskChs)
    (n : Option Nat) (wbuf : List Nat) (wd dbg : Bool)
    (h : 1 < (matchIdxs t chs n dbg).length) :
    t.write_sector chs n wbuf wd dbg = (t, .err .uniqueIdError) := by
  simp only [MetaSectorTrack.write_sector, gt_iff_lt]
  rw [if_pos h]

/-- C6 witness: scenario S6 — a write addressed to a duplicated id
(0,0,1,2) is refused with UniqueIdError. -/
theorem c6_duplicate_write_unique_id_witness :
    1 < (matchIdxs dupTrack ⟨0, 0, 1⟩ (some 2) false).length ∧
      dupTrack.write_sector ⟨0, 0, 1⟩ (some 2) (List.replicate 512 0) false false =
        (dupTrack, .err .uniqueIdError) :=
  ⟨by decide,
    c6_duplicate_write_unique_id dupTrack ⟨0, 0, 1⟩ (some 2)
      (List.replicate 512 0) false false (by decide)⟩

/-- C7 (amended): when sector matching yields zero sectors, write_sector
succeeds with not_found, no_dam and address_crc_error false, the
wrong_cylinder / bad_cylinder / wrong_head diagnostics computed by the
matcher over all visited sectors, and the track unchanged. -/
theorem c7_zero_match_write (t : MetaSectorTrack) (chs : DiskChs) (n : Option Nat)
    (wbuf : List Nat) (wd dbg : Bool) (h : matchIdxs t chs n dbg = []) :
    t.write_sector chs n wbuf wd dbg =
      (t, .ok
        { not_found := false
          no_dam := false
          address_crc_error := false
          wrong_cylinder := wrongCylinderFlag t chs
          bad_cylinder := badCylinderFlag t
          wrong_head := wrongHeadFlag t chs }) := by
  simp [MetaSectorTrack.write_sector, h]

/-- C7 counterexample: a track whose only sector sits on cylinder 1,
queried at (0,0,9): the match is empty, yet the returned result has
wrong_cylinder = true, so the flags are not all defaulted as claimed. -/
theorem c7_zero_match_counterexample :
    matchIdxs offCylTrack ⟨0, 0, 9⟩ none false = [] ∧
      (offCylTrack.write_sector ⟨0, 0, 9⟩ none [] false false).2 ≠
        .ok
          { not_found := false, no_dam := false, address_crc_error := false
            wrong_cylinder := false, bad_cylinder := false, wrong_head := false } ∧
      (offCylTrack.write_sector ⟨0, 0, 9⟩ none [] false false).2 =
        .ok
          { not_found := false, no_dam := false, address_crc_error := false
            wrong_cylinder := true, bad_cylinder := false, wrong_head := false } := by
  refine ⟨by decide, by decide, by decide⟩

/-- C7 witness: on the empty track the zero-match write succeeds and all
flags, the diagnostics included, happen to be false. -/
theorem c7_zero_match_write_witness :
    matchIdxs emptyTrack ⟨0, 0, 1⟩ none false = [] ∧
      emptyTrack.write_sector ⟨0, 0, 1⟩ none [] false false =
        (emptyTrack, .ok
          { not_found := false, no_dam := false, address_crc_error := false
            wrong_cylinder := false, bad_cylinder := false, wrong_head := false }) :=
  ⟨by decide,
    (c7_zero_match_write emptyTrack ⟨0, 0, 1⟩ none [] false false (by decide)).trans
      (by decide)⟩

/-- C5: a write whose matching yields exactly the sector at index i, where
that sector has missing_data or a bad address CRC and the buffer length
equals n_to_bytes(id.n), succeeds with no_dam and address_crc_error copied
from the sector and leaves the track — every sector, data, mark and mask —
unchanged. -/
theorem c5_write_suppressed (t : MetaSectorTrack) (chs : DiskChs) (n : Option Nat)
    (wbuf : List Nat) (wd dbg : Bool) (i : Nat) (s : MetaSector)
    (hidx : matchIdxs t chs n dbg = [i])
    (hs : t.sectors.getD i default = s)
    (hflag : s.missing_data = true ∨ s.address_crc_error = true)
    (hlen : wbuf.length = n_to_bytes s.id_chsn.n) :
    t.write_sector chs n wbuf wd dbg =
      (t, .ok
        { not_found := false
          no_dam := s.missing_data
          address_crc_error := s.address_crc_error
          wrong_cylinder := wrongCylinderFlag t chs
          bad_cylinder := badCylinderFlag t
          wrong_head := wrongHeadFlag t chs }) := by
  have hsup : (s.missing_data || s.address_crc_error) = true := by
    rcases hflag with h | h <;> simp [h]
  simp only [MetaSectorTrack.write_sector, hidx, List.length_cons, List.length_nil,
    List.headD_cons, hs]
  simp [hlen, hsup]

/-- C5 witness: writing 128 zero bytes to the missing-data sector (0,0,2,0)
is suppressed: the call succeeds with no_dam = true and the track keeps its
original data. -/
theorem c5_write_suppressed_witness :
    matchIdxs supTrack ⟨0, 0, 2⟩ none false = [0] ∧
      supTrack.write_sector ⟨0, 0, 2⟩ none (List.replicate 128 0) false false =
        (supTrack, .ok
          { not_found := false, no_dam := true, address_crc_error := false
            wrong_cylinder := false, bad_cylinder := false, wrong_head := false }) :=
  ⟨by decide,
    (c5_write_suppressed supTrack ⟨0, 0, 2⟩ none (List.replicate 128 0) false false 0
        supSector (by decide) (by decide) (Or.inl (by decide)) (by decide)).trans
      (by decide)⟩

/-- Once the match flag is set, the loop answers with the next sector
visited, or wraps to the remembered first sector at the end of the list. -/
theorem nextIdAux_matched_eq (chs : DiskChs) (first : MetaSector) (l : List MetaSector) :
    nextIdAux chs first l true =
      some ⟨chs.c, chs.h, (l.headD first).id_chsn.s, (l.headD first).id_chsn.n⟩ := by
  cases l <;> rfl

/-- Closed form of the get_next_id loop started with the flag clear: the
answer is built from the sector after the first index whose id.s matches,
wrapping to the remembered first sector. -/
theorem nextIdAux_false_eq (chs : DiskChs) (first : MetaSector) (l : List MetaSector) :
    nextIdAux chs first l false =
      match l.findIdx? (fun s => s.id_chsn.s == chs.s) with
      | none => none
      | some i =>
        if i + 1 < l.length then
          some ⟨chs.c, chs.h, (l.getD (i + 1) default).id_chsn.s,
            (l.getD (i + 1) default).id_chsn.n⟩
        else some ⟨chs.c, chs.h, first.id_chsn.s, first.id_chsn.n⟩ := by
  induction l with
  | nil => rfl
  | cons x xs ih =>
    have hstep : nextIdAux chs first (x :: xs) false =
        nextIdAux chs first xs (x.id_chsn.s == chs.s) := rfl
    rw [hstep]
    cases hx : (x.id_chsn.s == chs.s) with
    | true =>
      rw [nextIdAux_matched_eq]
      rw [List.findIdx?_cons, hx]
      cases xs with
      | nil => simp
      | cons y ys => simp
    | false =>
      rw [ih, List.findIdx?_cons, hx]
      rw [if_neg (by simp)]
      rw [List.findIdx?_succ]
      cases hfi : xs.findIdx? (fun s => s.id_chsn.s == chs.s) with
      | none => rfl
      | some j =>
        simp only [Option.map_some', List.length_cons, List.getD_cons_succ,
          Nat.add_lt_add_iff_right]

/-- C8 (amended): get_next_id returns Some of a DiskChsn whose cylinder and
head come from the query and whose s and n come from the sector physically
following the first sector with id.s = chs.s, wrapping to the first sector
of the track when the match is last; None when no sector id.s matches. -/
theorem c8_get_next_id_eq (t : MetaSectorTrack) (chs : DiskChs) :
    t.get_next_id chs =
      match t.sectors.findIdx? (fun s => s.id_chsn.s == chs.s) with
      | none => none
      | some i =>
        if i + 1 < t.sectors.length then
          some ⟨chs.c, chs.h, (t.sectors.getD (i + 1) default).id_chsn.s,
            (t.sectors.getD (i + 1) default).id_chsn.n⟩
        else
          some ⟨chs.c, chs.h, (t.sectors.headD default).id_chsn.s,
            (t.sectors.headD default).id_chsn.n⟩ := by
  rcases hsec : t.sectors with _ | ⟨first, rest⟩
  · simp [MetaSectorTrack.get_next_id, hsec]
  · simp only [MetaSectorTrack.get_next_id, hsec]
    rw [nextIdAux_false_eq]
    simp only [List.headD_cons]

/-- C8 counterexample: on a track [id (0,0,1,0), id (5,1,3,0)], the query
(9,9,1) matches the first sector, yet the returned id is (9,9,3,0) — the
query's cylinder and head — and not the following sector's id_chsn
(5,1,3,0) as the claim states. -/
theorem c8_next_id_counterexample :
    (nextTrack.sectors.getD 1 default).id_chsn = ⟨5, 1, 3, 0⟩ ∧
      nextTrack.get_next_id ⟨9, 9, 1⟩ = some ⟨9, 9, 3, 0⟩ ∧
      nextTrack.get_next_id ⟨9, 9, 1⟩ ≠ some ⟨5, 1, 3, 0⟩ := by decide

/-- Whatever is already in the accumulator survives the n_set fold. -/
theorem nsFold_acc_sub (l : List MetaSector) :
    ∀ acc x, x ∈ acc → x ∈ nsFold l acc := by
  induction l with
  | nil => intro _ x hx; exact hx
  | cons s rest ih =>
    intro acc x hx
    show x ∈ nsFold rest
      (if acc.contains s.id_chsn.n then acc else acc.concat s.id_chsn.n)
    apply ih
    by_cases hc : acc.contains s.id_chsn.n
    · rwa [if_pos hc]
    · rw [if_neg hc, List.concat_eq_append]
      exact List.mem_append_left _ hx

/-- The size code of every sector of the list appears in the n_set fold. -/
theorem nsFold_mem (l : List MetaSector) :
    ∀ acc s, s ∈ l → s.id_chsn.n ∈ nsFold l acc := by
  induction l with
  | nil => intro _ s hs; simp at hs
  | cons x rest ih =>
    intro acc s hs
    rcases List.mem_cons.mp hs with rfl | hs1
    · show s.id_chsn.n ∈ nsFold rest
        (if acc.contains s.id_chsn.n then acc else acc.concat s.id_chsn.n)
      apply nsFold_acc_sub
      by_cases hc : acc.contains s.id_chsn.n
      · rw [if_pos hc]
        exact List.elem_iff.mp hc
      · rw [if_neg hc, List.concat_eq_append]
        exact List.mem_append_right _ (by simp)
    · exact ih _ s hs1

/-- When every size code of the list is already in the accumulator, the
n_set fold adds nothing. -/
theorem nsFold_const (l : List MetaSector) :
    ∀ acc, (∀ s ∈ l, s.id_chsn.n ∈ acc) → nsFold l acc = acc := by
  induction l with
  | nil => intro _ _; rfl
  | cons x rest ih =>
    intro acc hall
    show nsFold rest (if acc.contains x.id_chsn.n then acc else acc.concat x.id_chsn.n)
      = acc
    rw [if_pos (List.elem_iff.mpr (hall x (by simp)))]
    exact ih acc (fun s hs => hall s (by simp [hs]))

/-- The last_n fold returns the common size code on a non-empty list whose
sectors all share it. -/
theorem lastN_fold_const (c : Nat) :
    ∀ (l : List MetaSector) (a : Nat), l ≠ [] → (∀ s ∈ l, s.id_chsn.n = c) →
      l.foldl (fun _ s => s.id_chsn.n) a = c := by
  intro l
  induction l with
  | nil => intro a h _; cases h rfl
  | cons x rest ih =>
    intro a _ hall
    show rest.foldl (fun _ s => s.id_chsn.n) x.id_chsn.n = c
    rcases eq_or_ne rest [] with rfl | hne
    · simpa using hall x (by simp)
    · exact ih _ hne (fun s hs => hall s (by simp [hs]))

/-- A list of length at most one containing x is exactly [x]. -/
theorem length_le_one_eq_singleton (l : List Nat) (x : Nat)
    (hlen : l.length ≤ 1) (hx : x ∈ l) : l = [x] := by
  cases l with
  | nil => simp at hx
  | cons a as =>
    cases as with
    | nil => simp at hx; simp [hx]
    | cons b bs => simp at hlen

/-- C9 (amended): on a non-empty track, consistent_sector_size = Some n
exactly when every sector has size code n.  (The empty track reports
Some 0, see the counterexample.) -/
theorem c9_consistent_sector_size (t : MetaSectorTrack) (n : Nat)
    (hne : t.sectors ≠ []) :
    (t.get_track_consistency.consistent_sector_size = some n ↔
      ∀ s ∈ t.sectors, s.id_chsn.n = n) := by
  have hmem : ∀ s ∈ t.sectors, s.id_chsn.n ∈ distinctNs t :=
    fun s hs => nsFold_mem _ _ s hs
  obtain ⟨x, xs, hsec⟩ : ∃ x xs, t.sectors = x :: xs := by
    cases hs : t.sectors with
    | nil => exact absurd hs hne
    | cons a as => exact ⟨a, as, rfl⟩
  constructor
  · intro h
    simp only [MetaSectorTrack.get_track_consistency] at h
    by_cases hl : (distinctNs t).length > 1
    · rw [if_pos hl] at h; simp at h
    · rw [if_neg hl] at h
      have hn : lastN t = n := Option.some.inj h
      have hxmem : x.id_chsn.n ∈ distinctNs t := hmem x (by rw [hsec]; simp)
      have hsingle : distinctNs t = [x.id_chsn.n] :=
        length_le_one_eq_singleton _ _ (Nat.not_lt.mp hl) hxmem
      have hall : ∀ s ∈ t.sectors, s.id_chsn.n = x.id_chsn.n := by
        intro s hs
        have hin := hmem s hs
        rw [hsingle] at hin
        simpa using hin
      have hlast : lastN t = x.id_chsn.n :=
        lastN_fold_const _ _ _ hne hall
      intro s hs
      rw [hall s hs, ← hlast, hn]
  · intro hall
    have h1 : distinctNs t = [n] := by
      unfold distinctNs
      rw [hsec]
      show nsFold xs
        (if List.contains [] x.id_chsn.n then [] else List.concat [] x.id_chsn.n) = [n]
      rw [if_neg (by simp), hall x (by rw [hsec]; simp)]
      exact nsFold_const xs _ (fun s hs => by
        rw [hall s (by rw [hsec]; simp [hs])]
        simp [List.concat_eq_append])
    have h2 : lastN t = n := lastN_fold_const _ _ _ hne hall
    simp [MetaSectorTrack.get_track_consistency, h1, h2]

/-- C9 counterexample: every sector of the empty track vacuously has size
code 1, yet consistent_sector_size is Some 0, not Some 1 — the claimed
equivalence fails for the empty track. -/
theorem c9_empty_track_counterexample :
    (∀ s ∈ emptyTrack.sectors, s.id_chsn.n = 1) ∧
      emptyTrack.get_track_consistency.consistent_sector_size ≠ some 1 ∧
      emptyTrack.get_track_consistency.consistent_sector_size = some 0 := by
  refine ⟨by simp [emptyTrack], by decide, by decide⟩

/-- C9 witness: the single-sector track of scenario S4 (size code 0). -/
theorem c9_consistent_sector_size_witness :
    trackS4.sectors ≠ [] ∧
      (trackS4.get_track_consistency.consistent_sector_size = some 0 ↔
        ∀ s ∈ trackS4.sectors, s.id_chsn.n = 0) :=
  ⟨by decide, c9_consistent_sector_size trackS4 0 (by decide)⟩

/-- With every combined mask byte zero the mask loop leaves the data
untouched and cannot panic. -/
theorem applyMasksAux_allzero (rng : Nat → Nat) (ps : List (Nat × Nat)) :
    ∀ (i : Nat) (d : List Nat), (∀ p ∈ ps, p.1 ||| p.2 = 0) →
      applyMasksAux rng i ps d = some d := by
  induction ps with
  | nil => intro i d _; rfl
  | cons p rest ih =>
    intro i d h
    simp only [applyMasksAux]
    rw [if_pos (h p (by simp))]
    exact ih _ _ (fun q hq => h q (by simp [hq]))

/-- The mask loop preserves the data length whenever it succeeds. -/
theorem applyMasksAux_length (rng : Nat → Nat) (ps : List (Nat × Nat)) :
    ∀ (i : Nat) (d v : List Nat),
      applyMasksAux rng i ps d = some v → v.length = d.length := by
  induction ps with
  | nil =>
    intro i d v h
    simp only [applyMasksAux] at h
    rw [← Option.some.inj h]
  | cons p rest ih =>
    intro i d v h
    simp only [applyMasksAux] at h
    by_cases hm : p.1 ||| p.2 = 0
    · rw [if_pos hm] at h
      exact ih _ _ _ h
    · rw [if_neg hm] at h
      by_cases hd : i < d.length
      · rw [if_pos hd] at h
        simpa using ih _ _ _ h
      · rw [if_neg hd] at h
        simp at h

/-- A sector with all-zero weak and hole masks reads back exactly its data,
independent of the random stream. -/
theorem read_data_allzero (s : MetaSector) (rng : Nat → Nat)
    (hmd : s.missing_data = false)
    (hw : ∀ b ∈ s.weak_mask.mask, b = 0) (hh : ∀ b ∈ s.hole_mask.mask, b = 0) :
    s.read_data rng = some s.data := by
  unfold MetaSector.read_data
  rw [hmd]
  simp only [Bool.false_eq_true, if_false]
  apply applyMasksAux_allzero
  rintro ⟨a, b⟩ hp
  obtain ⟨h1, h2⟩ := List.of_mem_zip hp
  rw [hw _ h1, hh _ h2]
  simp

/-- Unfolding maskedBy across the head of the pair list. -/
theorem maskedBy_cons (i : Nat) (p : Nat × Nat) (rest : List (Nat × Nat)) (j b : Nat) :
    maskedBy i (p :: rest) j b ↔
      ((i = j ∧ (p.1 ||| p.2).testBit b = true) ∨ maskedBy (i + 1) rest j b) := by
  constructor
  · rintro ⟨k, hk, hkj, hbit⟩
    cases k with
    | zero => exact Or.inl ⟨by simpa using hkj, by simpa using hbit⟩
    | succ k1 =>
      refine Or.inr ⟨k1, ?_, by omega, by simpa using hbit⟩
      simpa [Nat.succ_lt_succ_iff] using hk
  · rintro (⟨rfl, hbit⟩ | ⟨k, hk, hkj, hbit⟩)
    · exact ⟨0, by simp, by simp, by simpa using hbit⟩
    · exact ⟨k + 1, by simpa [Nat.succ_lt_succ_iff] using hk, by omega, by simpa using hbit⟩

/-- getD after set at the written index. -/
theorem getD_set_self_of_lt (d : List Nat) (i x : Nat) (h : i < d.length) :
    (d.set i x).getD i 0 = x := by
  simp [List.getD_eq_getElem?_getD, List.getElem?_set_self h]

/-- getD after set at a different index. -/
theorem getD_set_of_ne (d : List Nat) (i j x : Nat) (h : i ≠ j) :
    (d.set i x).getD j 0 = d.getD j 0 := by
  simp [List.getD_eq_getElem?_getD, List.getElem?_set_ne h]

/-- Two runs of the mask loop over the same masks and data, under any two
random streams, produce lists of equal length that agree at every bit not
under the mask.  (Stated for inputs that may already disagree under the
processed prefix: output bits agree wherever the inputs agreed and the
remaining mask is clear.) -/
theorem applyMasksAux_agree (f g : Nat → Nat) (ps : List (Nat × Nat)) :
    ∀ (i : Nat) (d d1 v w : List Nat),
      d.length = d1.length →
      applyMasksAux f i ps d = some v →
      applyMasksAux g i ps d1 = some w →
      v.length = w.length ∧
        ∀ j b, (d.getD j 0).testBit b = (d1.getD j 0).testBit b →
          ¬ maskedBy i ps j b →
          (v.getD j 0).testBit b = (w.getD j 0).testBit b := by
  induction ps with
  | nil =>
    intro i d d1 v w hlen hv hw
    simp only [applyMasksAux] at hv hw
    have hdv := Option.some.inj hv
    have hdw := Option.some.inj hw
    subst hdv; subst hdw
    exact ⟨hlen, fun _ _ hagree _ => hagree⟩
  | cons p rest ih =>
    intro i d d1 v w hlen hv hw
    simp only [applyMasksAux] at hv hw
    by_cases hm : p.1 ||| p.2 = 0
    · rw [if_pos hm] at hv hw
      obtain ⟨h1, h2⟩ := ih (i + 1) d d1 v w hlen hv hw
      refine ⟨h1, fun j b hagree hmask => h2 j b hagree fun hc => ?_⟩
      exact hmask ((maskedBy_cons i p rest j b).mpr (Or.inr hc))
    · rw [if_neg hm] at hv hw
      by_cases hd : i < d.length
      · have hd1 : i < d1.length := hlen ▸ hd
        rw [if_pos hd] at hv
        rw [if_pos hd1] at hw
        obtain ⟨h1, h2⟩ := ih (i + 1) _ _ v w (by simp [hlen]) hv hw
        refine ⟨h1, fun j b hagree hmask => ?_⟩
        have hnc1 : ¬ (i = j ∧ (p.1 ||| p.2).testBit b = true) := fun hc =>
          hmask ((maskedBy_cons i p rest j b).mpr (Or.inl hc))
        have hnc2 : ¬ maskedBy (i + 1) rest j b := fun hc =>
          hmask ((maskedBy_cons i p rest j b).mpr (Or.inr hc))
        apply h2 j b ?_ hnc2
        by_cases hij : i = j
        · subst hij
          have hbit : (p.1 ||| p.2).testBit b = false := by
            rcases Bool.eq_false_or_eq_true ((p.1 ||| p.2).testBit b) with hbt | hbt
            · exact absurd ⟨rfl, hbt⟩ hnc1
            · exact hbt
          rw [getD_set_self_of_lt _ _ _ hd, getD_set_self_of_lt _ _ _ hd1]
          simp only [Nat.testBit_or, Nat.testBit_and, Nat.testBit_xor, hbit,
            Bool.and_false, Bool.or_false, Bool.false_bne]
          rw [hagree]
        · rw [getD_set_of_ne _ _ _ _ hij, getD_set_of_ne _ _ _ _ hij]
          exact hagree
      · rw [if_neg hd] at hv
        simp at hv

/-- C4: any two calls of read_data on the same sector — two arbitrary
random streams — that return, return lists of the same length agreeing at
every bit position where the combined weak-or-hole mask bit is clear. -/
theorem c4_read_data_agree (s : MetaSector) (f g : Nat → Nat) (v w : List Nat)
    (hv : s.read_data f = some v) (hw : s.read_data g = some w) :
    v.length = w.length ∧
      ∀ j b,
        (s.weak_mask.mask.getD j 0 ||| s.hole_mask.mask.getD j 0).testBit b = false →
        (v.getD j 0).testBit b = (w.getD j 0).testBit b := by
  unfold MetaSector.read_data at hv hw
  by_cases hmd : s.missing_data
  · rw [if_pos hmd] at hv hw
    have h1 := Option.some.inj hv
    have h2 := Option.some.inj hw
    subst h1; subst h2
    exact ⟨rfl, fun _ _ _ => rfl⟩
  · rw [if_neg hmd] at hv hw
    obtain ⟨h1, h2⟩ := applyMasksAux_agree f g _ 0 s.data s.data v w rfl hv hw
    refine ⟨h1, fun j b hbit => h2 j b rfl ?_⟩
    rintro ⟨k, hk, hkj, hbitk⟩
    have hkj1 : k = j := by omega
    subst hkj1
    have hkmin : k < min s.weak_mask.mask.length s.hole_mask.mask.length := by
      simpa [List.length_zip] using hk
    have hkw : k < s.weak_mask.mask.length := lt_of_lt_of_le hkmin (Nat.min_le_left _ _)
    have hkh : k < s.hole_mask.mask.length := lt_of_lt_of_le hkmin (Nat.min_le_right _ _)
    have hsome : (s.weak_mask.mask.zip s.hole_mask.mask)[k]? =
        some (s.weak_mask.mask.getD k 0, s.hole_mask.mask.getD k 0) := by
      rw [List.getElem?_zip_eq_some]
      constructor
      · show s.weak_mask.mask[k]? = some (s.weak_mask.mask.getD k 0)
        rw [List.getElem?_eq_getElem hkw, List.getD_eq_getElem _ _ hkw]
      · show s.hole_mask.mask[k]? = some (s.hole_mask.mask.getD k 0)
        rw [List.getElem?_eq_getElem hkh, List.getD_eq_getElem _ _ hkh]
    have hzip : (s.weak_mask.mask.zip s.hole_mask.mask).getD k (0, 0) =
        (s.weak_mask.mask.getD k 0, s.hole_mask.mask.getD k 0) := by
      simp [List.getD_eq_getElem?_getD, hsome]
    rw [hzip] at hbitk
    simp only at hbitk
    rw [hbit] at hbitk
    exact Bool.false_ne_true hbitk

/-- C4 witness: the one-byte weak sector read under the all-zero and the
all-ones streams gives [0xAA] and [0xAB]; lengths agree and so does every
bit outside the mask. -/
theorem c4_read_data_agree_witness :
    weakSector.read_data rngZero = some [170] ∧
      weakSector.read_data rngFF = some [171] ∧
      ([170] : List Nat).length = ([171] : List Nat).length ∧
      ∀ j b,
        (weakSector.weak_mask.mask.getD j 0 |||
            weakSector.hole_mask.mask.getD j 0).testBit b = false →
        (([170] : List Nat).getD j 0).testBit b =
          (([171] : List Nat).getD j 0).testBit b :=
  ⟨by decide, by decide,
    (c4_read_data_agree weakSector rngZero rngFF [170] [171] (by decide) (by decide)).1,
    (c4_read_data_agree weakSector rngZero rngFF [170] [171] (by decide) (by decide)).2⟩

/-- C3: adding a descriptor with no (or all-zero) masks and present data to
a track carrying no sector with the same sector number, then reading it
back at its own C/H/S (size code absent or matching), succeeds with
not_found false and returns exactly the descriptor data. -/
theorem c3_round_trip (t : MetaSectorTrack) (sd : SectorDescriptor) (nq : Option Nat)
    (dbg : Bool) (rng : Nat → Nat)
    (hnos : ∀ x ∈ t.sectors, x.id_chsn.s ≠ sd.id_chsn.s)
    (hw : ∀ b ∈ sd.weak_mask.getD [], b = 0)
    (hh : ∀ b ∈ sd.hole_mask.getD [], b = 0)
    (hmd : sd.missing_data = false)
    (hn : nq = none ∨ nq = some sd.id_chsn.n) :
    ∃ r : ReadSectorResult,
      ((t.add_sector sd false).1).read_sector ⟨sd.id_chsn.c, sd.id_chsn.h, sd.id_chsn.s⟩
          nq .dataOnly dbg rng = .ok r ∧
        r.not_found = false ∧ r.read_buf = sd.data := by
  have ht1 : (t.add_sector sd false).1 =
      { t with sectors := t.sectors ++ [sdToMetaSector sd] } := rfl
  rw [ht1]
  set t1 : MetaSectorTrack := { t with sectors := t.sectors ++ [sdToMetaSector sd] }
    with ht1d
  have hsec1 : t1.sectors = t.sectors ++ [sdToMetaSector sd] := rfl
  have hlen1 : t1.sectors.length = t.sectors.length + 1 := by
    rw [hsec1]; simp
  have hgetd2 : t1.sectors.getD t.sectors.length default = sdToMetaSector sd := by
    rw [hsec1, List.getD_append_right _ _ _ _ (le_refl _)]
    simp
  have hmatch : matchIdxs t1 ⟨sd.id_chsn.c, sd.id_chsn.h, sd.id_chsn.s⟩ nq dbg =
      [t.sectors.length] := by
    unfold matchIdxs
    rw [hlen1, List.range_succ, List.filter_append]
    have hfilter1 : (List.range t.sectors.length).filter
        (fun i => sectorMatches (t1.sectors.getD i default)
          ⟨sd.id_chsn.c, sd.id_chsn.h, sd.id_chsn.s⟩ nq dbg) = [] := by
      rw [List.filter_eq_nil_iff]
      intro i hi
      have hilen : i < t.sectors.length := List.mem_range.mp hi
      have hgetd : t1.sectors.getD i default = t.sectors.getD i default := by
        rw [hsec1, List.getD_append _ _ _ _ hilen]
      have hmem : t.sectors.getD i default ∈ t.sectors := by
        rw [List.getD_eq_getElem _ _ hilen]
        exact List.getElem_mem hilen
      have hxs := hnos _ hmem
      rw [hgetd]
      simp only [List.getD_eq_getElem?_getD] at hxs
      simp [sectorMatches, DiskChs.ofChsn, DiskChs.mk.injEq, hxs]
    have hfilter2 : List.filter
        (fun i => sectorMatches (t1.sectors.getD i default)
          ⟨sd.id_chsn.c, sd.id_chsn.h, sd.id_chsn.s⟩ nq dbg) [t.sectors.length] =
        [t.sectors.length] := by
      have hp : sectorMatches (sdToMetaSector sd)
          ⟨sd.id_chsn.c, sd.id_chsn.h, sd.id_chsn.s⟩ nq dbg = true := by
        rcases hn with rfl | rfl <;>
          simp [sectorMatches, DiskChs.ofChsn, sdToMetaSector]
      simp [hgetd2, hp]
    rw [hfilter1, hfilter2, List.nil_append]
  have hwz : ∀ b ∈ (sdToMetaSector sd).weak_mask.mask, b = 0 := by
    rcases hsw : sd.weak_mask with _ | m
    · intro b hb
      simp only [sdToMetaSector, hsw, MetaMask.emptyMask] at hb
      exact List.eq_of_mem_replicate hb
    · intro b hb
      apply hw
      rw [hsw]
      simpa [sdToMetaSector, MetaMask.fromSlice, hsw] using hb
  have hhz : ∀ b ∈ (sdToMetaSector sd).hole_mask.mask, b = 0 := by
    rcases hsh : sd.hole_mask with _ | m
    · intro b hb
      simp only [sdToMetaSector, hsh, MetaMask.emptyMask] at hb
      exact List.eq_of_mem_replicate hb
    · intro b hb
      apply hh
      rw [hsh]
      simpa [sdToMetaSector, MetaMask.fromSlice, hsh] using hb
  have hrd : (sdToMetaSector sd).read_data rng = some sd.data :=
    read_data_allzero _ rng (by simp [sdToMetaSector, hmd]) hwz hhz
  refine ⟨{ id_chsn := some sd.id_chsn
            data_idx := 0
            data_len := sd.data.length
            read_buf := sd.data
            deleted_mark := sd.deleted_mark
            not_found := false
            no_dam := false
            address_crc_error := sd.address_crc_error
            data_crc_error := sd.data_crc_error
            wrong_cylinder := wrongCylinderFlag t1 ⟨sd.id_chsn.c, sd.id_chsn.h, sd.id_chsn.s⟩
            bad_cylinder := badCylinderFlag t1
            wrong_head := wrongHeadFlag t1 ⟨sd.id_chsn.c, sd.id_chsn.h, sd.id_chsn.s⟩ },
    ?_, rfl, rfl⟩
  simp only [MetaSectorTrack.read_sector, hmatch, List.length_cons, List.length_nil,
    List.headD_cons, hgetd2, hrd]
  simp [sdToMetaSector]

/-- C3 witness: the descriptor (0,0,1,0) with data [7, 8] added to the
empty track reads back as [7, 8]. -/
theorem c3_round_trip_witness :
    ∃ r : ReadSectorResult,
      ((emptyTrack.add_sector sdRT false).1).read_sector ⟨0, 0, 1⟩ none .dataOnly false
          rngZero = .ok r ∧
        r.not_found = false ∧ r.read_buf = sdRT.data :=
  c3_round_trip emptyTrack sdRT none false rngZero (by simp [emptyTrack])
    (by simp [sdRT]) (by simp [sdRT]) (by decide) (Or.inl rfl)

/-- C10: read_sector (DataOnly) and scan_sector never set no_dam; when the
selected sector has missing_data the read succeeds with an empty buffer
while data_len still reports the stored data length. -/
theorem c10_read_scan_no_dam (t : MetaSectorTrack) (chs : DiskChs) (n : Option Nat)
    (dbg : Bool) (rng : Nat → Nat) (r : ReadSectorResult) (r2 : ScanSectorResult)
    (hr : t.read_sector chs n .dataOnly dbg rng = .ok r)
    (hs : t.scan_sector chs n = .ok r2) :
    r.no_dam = false ∧ r2.no_dam = false ∧
      ∀ sel, matchIdxs t chs n dbg ≠ [] →
        t.sectors.getD ((matchIdxs t chs n dbg).headD 0) default = sel →
        sel.missing_data = true →
        r.read_buf = [] ∧ r.data_len = sel.data.length := by
  have h2 : r2.no_dam = false := by
    simp only [MetaSectorTrack.scan_sector] at hs
    by_cases h0 : (matchIdxs t chs n false).length = 0
    · rw [if_pos h0] at hs
      injection hs with h
      rw [← h]
    · rw [if_neg h0] at hs
      injection hs with h
      rw [← h]
  simp only [MetaSectorTrack.read_sector] at hr
  by_cases h0 : (matchIdxs t chs n dbg).length = 0
  · rw [if_pos h0] at hr
    injection hr with h
    refine ⟨by rw [← h], h2, fun sel hne _ _ => ?_⟩
    exact absurd (List.length_eq_zero.mp h0) hne
  · rw [if_neg h0] at hr
    cases hread : (t.sectors.getD ((matchIdxs t chs n dbg).headD 0) default).read_data rng
      with
    | none => rw [hread] at hr; simp at hr
    | some buf =>
      rw [hread] at hr
      injection hr with h
      refine ⟨by rw [← h], h2, fun sel hne hsel hmiss => ?_⟩
      subst hsel
      rw [MetaSector.read_data, if_pos hmiss] at hread
      have hbuf : buf = ([] : List Nat) := (Option.some.inj hread).symm
      subst hbuf
      exact ⟨by rw [← h], by rw [← h]⟩

/-- C10 witness: reading the missing-data sector (0,0,1,0) returns an empty
buffer, data_len 3 and no_dam false; the scan also reports no_dam false. -/
theorem c10_read_scan_no_dam_witness :
    (mdTrack.read_sector ⟨0, 0, 1⟩ none .dataOnly false rngZero = .ok
        { id_chsn := some ⟨0, 0, 1, 0⟩, data_idx := 0, data_len := 3, read_buf := []
          deleted_mark := false, not_found := false, no_dam := false
          address_crc_error := false, data_crc_error := false
          wrong_cylinder := false, bad_cylinder := false, wrong_head := false }) ∧
      (mdTrack.scan_sector ⟨0, 0, 1⟩ none = .ok
        { not_found := false, no_dam := false, deleted_mark := false
          address_crc_error := false, data_crc_error := false
          wrong_cylinder := false, bad_cylinder := false, wrong_head := false }) ∧
      matchIdxs mdTrack ⟨0, 0, 1⟩ none false ≠ [] ∧
      mdTrack.sectors.getD ((matchIdxs mdTrack ⟨0, 0, 1⟩ none false).headD 0) default =
        mdSector ∧
      mdSector.missing_data = true ∧
      ((
        { id_chsn := some ⟨0, 0, 1, 0⟩, data_idx := 0, data_len := 3, read_buf := []
          deleted_mark := false, not_found := false, no_dam := false
          address_crc_error := false, data_crc_error := false
          wrong_cylinder := false, bad_cylinder := false
          wrong_head := false } : ReadSectorResult).no_dam = false ∧
        (({ not_found := false, no_dam := false, deleted_mark := false
            address_crc_error := false, data_crc_error := false
            wrong_cylinder := false, bad_cylinder := false
            wrong_head := false } : ScanSectorResult)).no_dam = false ∧
        ∀ sel, matchIdxs mdTrack ⟨0, 0, 1⟩ none false ≠ [] →
          mdTrack.sectors.getD
              ((matchIdxs mdTrack ⟨0, 0, 1⟩ none false).headD 0) default = sel →
          sel.missing_data = true →
          (([] : List Nat) = [] ∧ 3 = sel.data.length)) :=
  ⟨by decide, by decide, by decide, by decide, by decide,
    c10_read_scan_no_dam mdTrack ⟨0, 0, 1⟩ none false rngZero _ _ (by decide) (by decide)⟩

end FluxFox
